import Mathlib

/-!
Verification of the frame-art repository: a shallow embedding of the
Next.js API routes (`/api/images`, `/api/generate`, `/api/edit`) and of
the client-side generation queue, together with theorems settling the
frozen claims about the specification.

Strings are modelled as `List Char` (the JavaScript string operations the
routes use — `split`, `replace`, `slice`, `includes`, `toLowerCase`,
template literals — become total functions on `List Char`).  JavaScript
falsiness of a string is emptiness; an absent JSON field is `none`.
`Date.now()` and `crypto.randomUUID().slice(0, 8)` are inputs of the
embedded handlers.  A `createdAt` ISO string is represented by the
millisecond epoch it renders (`new Date(ms).toISOString()` composed with
`new Date(s).getTime()` is the identity on the epoch value), so the field
is carried as an integer.
-/

/-- The character list of a string literal. -/
def str (s : String) : List Char := s.data

deriving instance DecidableEq for Except

/-- JS string-or-default: `s || d` where the empty string is falsy. -/
def jsOr (s d : List Char) : List Char := if s = [] then d else s

/-- JS optional-field-or-default: `x || d` where both a missing field and
the empty string are falsy. -/
def jsOrO (s : Option (List Char)) (d : List Char) : List Char :=
  match s with
  | none => d
  | some v => jsOr v d

/-- Truth of `!x` for an optional JS string (missing or empty is falsy). -/
def jsFalsyO (s : Option (List Char)) : Bool :=
  match s with
  | none => true
  | some v => v.isEmpty

/-- JS `String.prototype.replace` with a plain-string pattern and an empty
replacement: delete the first occurrence of `pat` (no change when `pat`
does not occur).  Both uses in the GET decoder delete (`.replace(x, '')`). -/
def removeFirst (pat : List Char) (l : List Char) : List Char :=
  match l with
  | [] => []
  | a :: rest =>
    if pat.isPrefixOf (a :: rest) then (a :: rest).drop pat.length
    else a :: removeFirst pat rest

/-- JS `String.prototype.split` on a one-character separator: never returns an
empty list (`"".split(c) === [""]`). -/
def splitOnChar (c : Char) (l : List Char) : List (List Char) :=
  match l with
  | [] => [[]]
  | a :: rest =>
    match splitOnChar c rest with
    | [] => [[]]
    | h :: t => if a = c then [] :: h :: t else (a :: h) :: t

/-- JS `Array.prototype.join` with a one-character separator. -/
def joinChar (c : Char) : List (List Char) → List Char
  | [] => []
  | [x] => x
  | x :: xs => x ++ c :: joinChar c xs

/-- Decimal digit test, `c` in `[0-9]`. -/
def isDigitCh (c : Char) : Bool := '0' ≤ c && c ≤ '9'

/-- Numeric value of a decimal digit list (most significant first). -/
def digitsVal (l : List Char) : Nat :=
  l.foldl (fun a c => 10 * a + (c.toNat - 48)) 0

/-- The longest digit run at the front of `l`, as a number; `none` when `l`
does not start with a digit. -/
def parseNatPref (l : List Char) : Option Nat :=
  let ds := l.takeWhile isDigitCh
  if ds = [] then none else some (digitsVal ds)

/-- JS whitespace skipped by `parseInt`: the ASCII members of the
WhiteSpace and LineTerminator productions. -/
def isJsSpace (c : Char) : Bool :=
  c = ' ' || c = '\t' || c = '\n' || c = '\r' || c = '\x0b' || c = '\x0c'

/-- Hexadecimal digit test, `[0-9a-fA-F]`. -/
def isHexDigitCh (c : Char) : Bool :=
  ('0' ≤ c && c ≤ '9') || ('a' ≤ c && c ≤ 'f') || ('A' ≤ c && c ≤ 'F')

/-- Value of one hexadecimal digit. -/
def hexDigitVal (c : Char) : Nat :=
  if 'a' ≤ c && c ≤ 'f' then c.toNat - 87
  else if 'A' ≤ c && c ≤ 'F' then c.toNat - 55
  else c.toNat - 48

/-- Numeric value of a hexadecimal digit list (most significant first). -/
def hexVal (l : List Char) : Nat :=
  l.foldl (fun a c => 16 * a + hexDigitVal c) 0

/-- The unsigned part of JS `parseInt` with no radix argument: a `0x` or
`0X` literal reads the longest hexadecimal digit run after it, anything
else reads the longest decimal digit run; `none` models `NaN`. -/
def parseUnsigned (l : List Char) : Option Nat :=
  match l with
  | c0 :: c1 :: rest =>
    if c0 = '0' && (c1 = 'x' || c1 = 'X') then
      let ds := rest.takeWhile isHexDigitCh
      if ds = [] then none else some (hexVal ds)
    else parseNatPref l
  | _ => parseNatPref l

/-- JS `parseInt(s)` with no radix argument: skip leading whitespace, read
an optional sign, then the unsigned part; `none` models `NaN`. -/
def parseIntJS (l : List Char) : Option Int :=
  match l.dropWhile isJsSpace with
  | [] => none
  | c :: rest =>
    if c = '-' then (parseUnsigned rest).map (fun n => -(n : Int))
    else if c = '+' then (parseUnsigned rest).map (fun n => (n : Int))
    else (parseUnsigned (c :: rest)).map (fun n => (n : Int))

/-- Decimal rendering of a natural number (the template-literal form of
`Date.now()` in the storage key). -/
def natToChars (n : Nat) : List Char :=
  if h : n < 10 then [Char.ofNat (48 + n)]
  else natToChars (n / 10) ++ [Char.ofNat (48 + n % 10)]
  decreasing_by exact Nat.div_lt_self (Nat.lt_of_lt_of_le (by omega) (Nat.le_of_not_lt h)) (by omega)

/-- Characters the style slug keeps, the class `[a-zA-Z0-9-]` of
`style.replace(/[^a-zA-Z0-9-]/g, '-')`. -/
def isSafeCh (c : Char) : Bool :=
  ('a' ≤ c && c ≤ 'z') || ('A' ≤ c && c ≤ 'Z') || ('0' ≤ c && c ≤ '9') || c = '-'

/-- ASCII `toLowerCase`. -/
def toLowerStr (l : List Char) : List Char := l.map Char.toLower

/-- The slug sanitiser of the save handlers:
`style.replace(/[^a-zA-Z0-9-]/g, '-').toLowerCase()`. -/
def sanitizeStyle (l : List Char) : List Char :=
  toLowerStr (l.map (fun c => if isSafeCh c then c else '-'))

/-- The GET decoder step replacing every hyphen by a space
(`style.replace` with the global hyphen regex and a space). -/
def hyphensToSpaces (l : List Char) : List Char :=
  l.map (fun c => if c = '-' then ' ' else c)

/-- JS `String.prototype.includes`: does `pat` occur contiguously in `l`? -/
def containsSub (pat : List Char) (l : List Char) : Bool :=
  match l with
  | [] => pat.isEmpty
  | a :: rest => pat.isPrefixOf (a :: rest) || containsSub pat rest

/-- Case-insensitive containment, `a.toLowerCase().includes(pat)` for an
already-lowercase `pat`. -/
def containsCI (pat a : List Char) : Bool := containsSub pat (toLowerStr a)

/-- The fixed storage prefix `frame-art/`. -/
def framePref : List Char := (str "frame-art/")

/-- The `.png` extension. -/
def pngExt : List Char := (str ".png")

/-- A stored blob as the storage service reports it: its pathname (the key)
and its public URL.  The service keys objects by pathname and assigns each
object a distinct URL. -/
structure Blob where
  pathname : List Char
  url : List Char
deriving DecidableEq, Repr

/-- The `GeneratedImage` record of `src/types/index.ts`; `createdAtMs` is
the millisecond epoch rendered by the `createdAt` ISO string. -/
structure GeneratedImage where
  id : List Char
  url : List Char
  prompt : List Char
  style : List Char
  createdAtMs : Int
deriving DecidableEq, Repr

/-- One JSON body + status as the route handlers build it with
`NextResponse.json`; a field the handler does not put in the body is
`none`. -/
structure JsonResp where
  status : Nat
  error : Option (List Char) := none
  details : Option (List Char) := none
  imageBase64 : Option (List Char) := none
  prompt : Option (List Char) := none
  image : Option GeneratedImage := none
  dimensions : Option (Nat × Nat) := none
  images : Option (List GeneratedImage) := none
  success : Option Bool := none
deriving DecidableEq, Repr

/-- The largest millisecond epoch a JS `Date` accepts (8.64e15): beyond
this magnitude `new Date(ms)` is an Invalid Date and `toISOString()`
throws a RangeError. -/
def maxDateMs : Int := 8640000000000000

/-- The epoch the GET decoder feeds to `new Date(...)`:
`parseInt(parts[last] || Date.now().toString()) || Date.now()` — the
token defaults to the current time when empty, and a `NaN` or `0` parse
falls back to the current time. -/
def decodeEpochMs (now : Nat) (tsStr : List Char) : Int :=
  match parseIntJS (jsOr tsStr (natToChars now)) with
  | some v => if v = 0 then (now : Int) else v
  | none => (now : Int)

/-- The underscore tokens of a blob key as the GET decoder computes them
(lines 29-30): strip the first occurrences of `frame-art/` and `.png`,
split the rest on `_`. -/
def keyPartsOf (b : Blob) : List (List Char) :=
  splitOnChar '_' (removeFirst pngExt (removeFirst framePref b.pathname))

/-- The GET decoder of `src/app/api/images/route.ts` (lines 27-41):
`id = parts[0] || pathname`, `style = parts.slice(1,-1).join('_') ||
'Unknown'` with hyphens re-spaced, and `createdAt` from the epoch of
`decodeEpochMs`.  Building the `createdAt` ISO string
(`new Date(...).toISOString()`) throws a RangeError when that epoch lies
outside the JS Date range, so decoding is fallible; the error escapes to
the route's catch. -/
def decodeBlob (now : Nat) (b : Blob) : Except (List Char) GeneratedImage :=
  let parts := keyPartsOf b
  let id := jsOr (parts.headD []) b.pathname
  let styleRaw := jsOr (joinChar '_' ((parts.drop 1).dropLast)) (str "Unknown")
  let ms := decodeEpochMs now (parts.getLastD [])
  if ms < -maxDateMs ∨ maxDateMs < ms then .error (str "RangeError")
  else .ok { id := id, url := b.url, prompt := [],
             style := hyphensToSpaces styleRaw, createdAtMs := ms }

/-- Descending comparator of the GET sort,
`(a, b) => new Date(b.createdAt).getTime() - new Date(a.createdAt).getTime()`. -/
def newerFirst (a b : GeneratedImage) : Bool := b.createdAtMs ≤ a.createdAtMs

/-- The `do … while (cursor)` pagination loop of GET `/api/images` (lines
16-23): concatenate the service pages in order until `hasMore` is false. -/
def listAllBlobs : List (List Blob) → List Blob
  | [] => []
  | page :: rest => page ++ listAllBlobs rest

/-- The body of GET `/api/images` after the listing (lines 25-44): keep
`.png` keys, decode each in order — the first decode throw aborts the
whole map — then sort newest first and keep the 100 most recent. -/
def getImagesFrom (blobs : List Blob) (now : Nat) :
    Except (List Char) (List GeneratedImage) :=
  ((blobs.filter (fun b => pngExt.isSuffixOf b.pathname)).mapM (decodeBlob now)).map
    (fun recs => (recs.mergeSort newerFirst).take 100)

/-- What the storage service lists for the fixed prefix: every stored blob
whose pathname starts with `frame-art/`. -/
def listService (store : List Blob) : List Blob :=
  store.filter (fun b => framePref.isPrefixOf b.pathname)

/-- GET `/api/images` over a paginated listing result: `.ok pages` is the
sequence of service pages the cursor loop walks, `.error` a thrown
storage failure.  Both a listing failure and a decode throw (RangeError in
`toISOString`) land in the same catch at lines 53-64: status 500, an
error string, and `images: []`. -/
def imagesGET (listing : Except (List Char) (List (List Blob))) (now : Nat) : JsonResp :=
  match listing with
  | .ok pages =>
    match getImagesFrom (listAllBlobs pages) now with
    | .ok imgs => { status := 200, images := some imgs }
    | .error _ =>
      { status := 500,
        error := some (str "Failed to list images"),
        images := some [] }
  | .error _ =>
    { status := 500,
      error := some (str "Failed to list images"),
      images := some [] }

/-- GET `/api/images` against a store that lists successfully in one page. -/
def imagesGETStore (store : List Blob) (now : Nat) : JsonResp :=
  imagesGET (.ok [listService store]) now

/-- The storage key `frame-art/{id}_{slug}_{timestamp}.png` composed by the
save handlers. -/
def mkKey (id slug : List Char) (ts : Nat) : List Char :=
  framePref ++ id ++ '_' :: slug ++ '_' :: natToChars ts ++ pngExt

/-- POST `/api/images` (lines 68-110): 400 when `imageBase64` is falsy,
otherwise store the bytes under a fresh key built from the random short
`id`, the sanitised style slug and the epoch `ts`, and answer with the
reconstructed record carrying the literal style label and prompt.  `url`
is the public URL the service assigns to the new object. -/
def imagesPOST (store : List Blob) (imageBase64 style prompt : Option (List Char))
    (id : List Char) (ts : Nat) (url : List Char) : JsonResp × List Blob :=
  if jsFalsyO imageBase64 then
    ({ status := 400, error := some (str "Image data is required") }, store)
  else
    let safeStyle := sanitizeStyle (jsOrO style (str "artwork"))
    let filename := mkKey id safeStyle ts
    let store' := store ++ [⟨filename, url⟩]
    ({ status := 200,
       image := some { id := id, url := url, prompt := jsOrO prompt [],
                       style := jsOrO style (str "Unknown"),
                       createdAtMs := (ts : Int) } }, store')

/-- DELETE `/api/images?id={id}` (lines 113-148): 400 when the query
parameter is missing (or empty, both falsy).  The handler makes a single
unpaginated `list({prefix})` call, so it searches only the first service
page of the prefix listing (`page`): the first blob there whose pathname
contains `id` as a substring is deleted — the service removes the object
carrying the found URL — answering 200 `{success: true}`; when no
pathname on that page contains `id` (even if a later page holds a match)
the answer is 404. -/
def imagesDELETE (store page : List Blob) (idParam : Option (List Char)) :
    JsonResp × List Blob :=
  if jsFalsyO idParam then
    ({ status := 400, error := some (str "Image ID is required") }, store)
  else
    let idc := (idParam.getD [])
    match page.find? (fun b => containsSub idc b.pathname) with
    | none =>
      ({ status := 404, error := some (str "Image not found") }, store)
    | some b =>
      ({ status := 200, success := some true },
        store.eraseP (fun x => x.url == b.url))

/-- The two instruction templates of the prompt-crafting call in
`src/app/api/generate/route.ts` (lines 30-62): the restrained minimalist
text or the fuller cinematic art-direction text. -/
inductive Template where
  | minimalist
  | cinematic
deriving DecidableEq, Repr

/-- The style test of lines 26-28: the lowercased style contains
`minimal`, `simple` or `clean`. -/
def isMinimalist (style : List Char) : Bool :=
  containsCI (str "minimal") style || containsCI (str "simple") style ||
    containsCI (str "clean") style

/-- The crafting request a style produces: the chosen instruction template
and the `generationConfig` of lines 75-78 (`temperature: isMinimalist ?
0.7 : 1.2`, `maxOutputTokens: isMinimalist ? 150 : 400`). -/
structure CraftConfig where
  template : Template
  temperature : ℚ
  maxOutputTokens : Nat
deriving DecidableEq, Repr

/-- The crafting call configuration chosen for a style. -/
def craftConfig (style : List Char) : CraftConfig :=
  if isMinimalist style then
    { template := .minimalist, temperature := 7 / 10, maxOutputTokens := 150 }
  else
    { template := .cinematic, temperature := 12 / 10, maxOutputTokens := 400 }

/-- Result of the prompt-crafting fetch as POST `/generate` reads it:
`ok` is `promptCraftingRequest.ok`, `text` models
`promptData.candidates?.[0]?.content?.parts?.[0]?.text?.trim()` (`none`
when the path is absent). -/
structure CraftFetch where
  ok : Bool
  text : Option (List Char)
deriving DecidableEq, Repr

/-- Result of the image-synthesis fetch as POST `/generate` reads it:
`ok`/`status` from the response, `errorText` its body text, `image` the
base64 payload found at `predictions?.[0]?.bytesBase64Encoded` or
`generated_images?.[0]?.image?.imageBytes`. -/
structure SynthFetch where
  ok : Bool
  status : Nat
  errorText : List Char
  image : Option (List Char)
deriving DecidableEq, Repr

/-- POST `/api/generate` (`src/app/api/generate/route.ts`): 400 on falsy
`style`; 500 on missing `GEMINI_API_KEY`; a failed or empty crafting step
throws and is caught as a 500 `Internal server error`; a non-ok synthesis
response is echoed with the upstream status and `{error, details}`; a
missing image payload is a 500 `{error, details}`; success is a 200 with
`{imageBase64, prompt}`. -/
def generatePOST (style userPrompt apiKey : Option (List Char))
    (craft : CraftFetch) (synth : SynthFetch) : JsonResp :=
  if jsFalsyO style then
    { status := 400, error := some (str "Style is required") }
  else if jsFalsyO apiKey then
    { status := 500, error := some (str "API key not configured") }
  else
    -- the crafting request is issued with `craftConfig (style)` and the
    -- subject `userPrompt?.trim() || 'a stunning scene perfect for display
    -- as wall art'`; its outcome is `craft`
    if !craft.ok then
      { status := 500, error := some (str "Internal server error") }
    else if jsFalsyO craft.text then
      { status := 500, error := some (str "Internal server error") }
    else if !synth.ok then
      { status := synth.status, error := some (str "Failed to generate image"),
        details := some synth.errorText }
    else
      match synth.image with
      | none =>
        { status := 500, error := some (str "No image generated"),
          details := some (str "Model did not return an image") }
      | some img =>
        { status := 200, imageBase64 := some img, prompt := craft.text }

/-- The source image POST `/edit` fetched and re-encoded (lines 26-36):
its bytes as base64 and the reported content type. -/
structure FetchedImage where
  dataB64 : List Char
  contentType : Option (List Char)
deriving DecidableEq, Repr

/-- The parsed upstream edit response (lines 99-107): the first inline
image part, if any, and the first text part, if any. -/
structure EditParsed where
  image : Option (List Char)
  text : Option (List Char)
deriving DecidableEq, Repr

/-- The upstream edit call as POST `/edit` reads it: `ok`/`status` of the
response, its raw body text, and `parsed` the JSON parse of that body
(`none` when `JSON.parse` throws). -/
structure EditUpstream where
  ok : Bool
  status : Nat
  text : List Char
  parsed : Option EditParsed
deriving DecidableEq, Repr

/-- POST `/api/edit` (`src/app/api/edit/route.ts`): validate the body and
the credential; fetch the source image (`fetchImg = none` models a non-ok
fetch, whose `throw` is caught at lines 156-164 as a 500 naming the fetch
failure); call the upstream editor; parse; extract the image; normalise
through sharp (`resize`, whose failure throws and is caught as a 500);
only then store the result under a fresh key and answer 200 with the
record.  The second component is the store after the request: every
failure leaves it unchanged. -/
def editPOST (imageUrl editInstruction style apiKey : Option (List Char))
    (fetchImg : Option FetchedImage) (upstream : EditUpstream)
    (resize : List Char → Except (List Char) (List Char))
    (id : List Char) (ts : Nat) (putUrl : List Char)
    (store : List Blob) : JsonResp × List Blob :=
  if jsFalsyO imageUrl || jsFalsyO editInstruction then
    ({ status := 400,
       error := some (str "Image URL and edit instruction are required") }, store)
  else if jsFalsyO apiKey then
    ({ status := 500, error := some (str "API key not configured") }, store)
  else
    match fetchImg with
    | none =>
      ({ status := 500, error := some (str "Failed to edit image"),
         details := some (str "Failed to fetch original image") }, store)
    | some _ =>
      if !upstream.ok then
        ({ status := upstream.status, error := some (str "Failed to edit image"),
           details := some upstream.text }, store)
      else
        match upstream.parsed with
        | none =>
          ({ status := 500, error := some (str "Edit failed"),
             details := some (upstream.text.take 200) }, store)
        | some parsed =>
          match parsed.image with
          | none =>
            ({ status := 500, error := some (str "Edit failed"),
               details := some (parsed.text.getD (str "Model did not return an edited image")) },
              store)
          | some img =>
            match resize img with
            | .error msg =>
              ({ status := 500, error := some (str "Failed to edit image"),
                 details := some msg }, store)
            | .ok _ =>
              let safeStyle := sanitizeStyle (jsOrO style (str "edited"))
              let filename := mkKey id safeStyle ts
              ({ status := 200,
                 image := some { id := id, url := putUrl, prompt := editInstruction.getD [],
                                 style := jsOrO style (str "Edited"),
                                 createdAtMs := (ts : Int) } },
                store ++ [⟨filename, putUrl⟩])

/-- Status of one client-side queued generation.
Modelled from the spec: the queue controller component is not among the
repository files (only the `GenerateButton` consuming `queueCount` and
`maxQueue` is, in `src/components/ImageDetailView.tsx`); §3 and §4.5 of
the specification give the statuses `pending`, `generating`, `failed`. -/
inductive GenStatus where
  | pending
  | generating
  | failed
deriving DecidableEq, Repr

/-- One client-side queued generation (spec §3 `QueuedGeneration`). -/
structure QueuedGeneration where
  qid : Nat
  status : GenStatus
deriving DecidableEq, Repr

/-- Client state: the queue plus a count of generation network calls
issued so far (to witness that rejected submissions issue none).
Modelled from the spec (§4.5): the owning page component is not among
the repository files. -/
structure ClientState where
  queue : List QueuedGeneration
  networkCalls : Nat
deriving DecidableEq, Repr

/-- Items counting toward the admission bound: status in
{pending, generating} (spec §4.5 global admission rule). -/
def activeCount (s : ClientState) : Nat :=
  s.queue.countP (fun q => q.status = GenStatus.pending || q.status = GenStatus.generating)

/-- The queue admission bound (spec §4.5: a fixed bound, 4). -/
def maxConcurrent : Nat := 4

/-- The `GenerateButton` gating of `src/components/ImageDetailView.tsx`
line 849: `const isQueueFull = queueCount >= maxQueue`; the button is
rendered `disabled={disabled || isQueueFull}`. -/
def isQueueFull (queueCount maxQueue : Nat) : Bool := queueCount ≥ maxQueue

/-- Submitting a generation request.
Modelled from the spec (§4.5): above the bound the request is rejected
client-side before any network call; an accepted item transitions
pending→generating immediately and starts its call chain right away. -/
def submitGen (s : ClientState) (rid : Nat) : ClientState :=
  if activeCount s ≥ maxConcurrent then s
  else { queue := s.queue ++ [{ qid := rid, status := GenStatus.generating }],
         networkCalls := s.networkCalls + 1 }

/-- A queued item succeeds: it is removed entirely (spec §4.5: no
"succeeded" resting state).  Modelled from the spec. -/
def completeGen (s : ClientState) (rid : Nat) : ClientState :=
  { s with queue := s.queue.filter (fun q => q.qid ≠ rid) }

/-- A queued item fails: its status becomes `failed` and it remains until
dismissed.  Modelled from the spec (§4.5). -/
def failGen (s : ClientState) (rid : Nat) : ClientState :=
  { s with queue := s.queue.map (fun q =>
      if q.qid = rid then { q with status := GenStatus.failed } else q) }

/-- Dismissing a failed item removes it.  Modelled from the spec (§4.5). -/
def dismissGen (s : ClientState) (rid : Nat) : ClientState :=
  { s with queue := s.queue.filter (fun q =>
      !(q.qid = rid && q.status = GenStatus.failed)) }

/-- The client actions of the generation queue.  Modelled from the spec. -/
inductive QueueAction where
  | submit (rid : Nat)
  | complete (rid : Nat)
  | fail (rid : Nat)
  | dismiss (rid : Nat)
deriving DecidableEq, Repr

/-- One client step.  Modelled from the spec (§4.5). -/
def stepClient (s : ClientState) : QueueAction → ClientState
  | .submit rid => submitGen s rid
  | .complete rid => completeGen s rid
  | .fail rid => failGen s rid
  | .dismiss rid => dismissGen s rid

/-- The empty initial client state. -/
def initClient : ClientState := { queue := [], networkCalls := 0 }

/-- The client state after a sequence of actions from the initial state:
exactly the reachable states.  Modelled from the spec. -/
def runClient (acts : List QueueAction) : ClientState :=
  acts.foldl stepClient initClient

/-- The key-body encoder implicit in the save handlers (POST `/images`
line 86, POST `/edit` line 138): `{id}_{slug}_{timestamp}` joined by
underscores. -/
def encodeKeyBody (id slug ts : List Char) : List Char :=
  id ++ ('_' :: (slug ++ ('_' :: ts)))

/-- The key-body decoder implicit in GET `/images` lines 30-33: split on
underscores, first token is the id, last token is the timestamp,
everything between is rejoined with underscores as the slug (stated here
without the `||` fallbacks, which fire only off the key grammar). -/
def decodeKeyBody (s : List Char) : List Char × List Char × List Char :=
  let parts := splitOnChar '_' s
  (parts.headD [], joinChar '_' ((parts.drop 1).dropLast), parts.getLastD [])

theorem isPrefixOf_append_self (l r : List Char) : l.isPrefixOf (l ++ r) = true := by
  induction l with
  | nil => simp [List.isPrefixOf]
  | cons a as ih => simpa [List.isPrefixOf] using ih

theorem isPrefixOf_cons_ne (q a : Char) (qs l : List Char) (h : a ≠ q) :
    (q :: qs).isPrefixOf (a :: l) = false := by
  simp [List.isPrefixOf]
  intro hq
  exact absurd hq.symm h

theorem isSuffixOf_append_self (l r : List Char) : r.isSuffixOf (l ++ r) = true := by
  simpa [List.isSuffixOf, List.reverse_append] using
    isPrefixOf_append_self r.reverse l.reverse

theorem removeFirst_left (p r : List Char) (hp : p ≠ []) :
    removeFirst p (p ++ r) = r := by
  match p, hp with
  | a :: as, _ =>
    show removeFirst (a :: as) (a :: (as ++ r)) = r
    rw [removeFirst]
    have h1 : (a :: as).isPrefixOf (a :: (as ++ r)) = true := isPrefixOf_append_self (a :: as) r
    simp only [h1, if_pos]
    simpa using List.drop_left as r

theorem removeFirst_append_of_head_notMem (q : Char) (qs body : List Char)
    (hq : q ∉ body) : removeFirst (q :: qs) (body ++ q :: qs) = body := by
  induction body with
  | nil =>
    show removeFirst (q :: qs) (q :: qs) = []
    simpa using removeFirst_left (q :: qs) [] (by simp)
  | cons a body ih =>
    have ha : a ≠ q := by
      intro h; exact hq (h ▸ List.mem_cons_self a body)
    have hq' : q ∉ body := fun h => hq (List.mem_cons_of_mem a h)
    show removeFirst (q :: qs) (a :: (body ++ q :: qs)) = a :: body
    rw [removeFirst, isPrefixOf_cons_ne q a qs _ ha]
    simp only [Bool.false_eq_true, if_false, ih hq']

theorem splitOnChar_ne_nil (c : Char) (l : List Char) : splitOnChar c l ≠ [] := by
  cases l with
  | nil => simp [splitOnChar]
  | cons a rest =>
    rw [splitOnChar]
    cases h : splitOnChar c rest with
    | nil => simp
    | cons x xs => by_cases hac : a = c <;> simp [hac]

theorem splitOnChar_of_notMem (c : Char) (l : List Char) (h : c ∉ l) :
    splitOnChar c l = [l] := by
  induction l with
  | nil => rfl
  | cons a rest ih =>
    have ha : a ≠ c := by intro hac; exact h (hac ▸ List.mem_cons_self a rest)
    have h' : c ∉ rest := fun hm => h (List.mem_cons_of_mem a hm)
    rw [splitOnChar, ih h']
    simp [ha]

theorem splitOnChar_append_left (c : Char) (xs ys : List Char) (h : c ∉ xs) :
    splitOnChar c (xs ++ c :: ys) = xs :: splitOnChar c ys := by
  induction xs with
  | nil =>
    show splitOnChar c (c :: ys) = [] :: splitOnChar c ys
    rw [splitOnChar]
    cases hys : splitOnChar c ys with
    | nil => exact absurd hys (splitOnChar_ne_nil c ys)
    | cons x t => simp
  | cons a xs ih =>
    have ha : a ≠ c := by intro hac; exact h (hac ▸ List.mem_cons_self a xs)
    have h' : c ∉ xs := fun hm => h (List.mem_cons_of_mem a hm)
    show splitOnChar c (a :: (xs ++ c :: ys)) = (a :: xs) :: splitOnChar c ys
    rw [splitOnChar, ih h']
    simp [ha]

theorem splitOnChar_append_last (c : Char) (xs ts : List Char) (h : c ∉ ts) :
    splitOnChar c (xs ++ c :: ts) = splitOnChar c xs ++ [ts] := by
  induction xs with
  | nil =>
    have h0 := splitOnChar_append_left c [] ts (by simp)
    rw [List.nil_append] at h0
    show splitOnChar c ([] ++ c :: ts) = splitOnChar c [] ++ [ts]
    rw [List.nil_append, h0, splitOnChar_of_notMem c ts h]
    rfl
  | cons a xs ih =>
    show splitOnChar c (a :: (xs ++ c :: ts)) = splitOnChar c (a :: xs) ++ [ts]
    rw [splitOnChar, ih, splitOnChar]
    cases hxs : splitOnChar c xs with
    | nil => exact absurd hxs (splitOnChar_ne_nil c xs)
    | cons x t => by_cases hac : a = c <;> simp [hac]

theorem joinChar_splitOnChar (c : Char) (l : List Char) :
    joinChar c (splitOnChar c l) = l := by
  induction l with
  | nil => rfl
  | cons a rest ih =>
    rw [splitOnChar]
    cases h : splitOnChar c rest with
    | nil => exact absurd h (splitOnChar_ne_nil c rest)
    | cons x t =>
      rw [h] at ih
      by_cases hac : a = c
      · subst hac
        simp only [if_pos rfl]
        cases t with
        | nil => simpa [joinChar] using ih
        | cons y ys => simpa [joinChar] using ih
      · simp only [if_neg hac]
        cases t with
        | nil => simpa [joinChar] using ih
        | cons y ys => simpa [joinChar] using ih

theorem isDigitCh_digit (d : Nat) (h : d < 10) :
    isDigitCh (Char.ofNat (48 + d)) = true := by
  interval_cases d <;> decide

theorem toNat_digitCh (d : Nat) (h : d < 10) :
    (Char.ofNat (48 + d)).toNat = 48 + d := by
  interval_cases d <;> decide

theorem natToChars_ne_nil (n : Nat) : natToChars n ≠ [] := by
  rw [natToChars]
  split <;> simp

theorem natToChars_digits (n : Nat) : ∀ c ∈ natToChars n, isDigitCh c = true := by
  induction n using Nat.strong_induction_on with
  | _ n ih =>
    rw [natToChars]
    split
    · next h =>
      intro c hc
      rw [List.mem_singleton] at hc
      exact hc ▸ isDigitCh_digit n h
    · next h =>
      intro c hc
      rcases List.mem_append.mp hc with h1 | h1
      · exact ih (n / 10) (Nat.div_lt_self (by omega) (by omega)) c h1
      · rw [List.mem_singleton] at h1
        exact h1 ▸ isDigitCh_digit (n % 10) (Nat.mod_lt n (by omega))

theorem digit_ne_underscore (c : Char) (h : isDigitCh c = true) : c ≠ '_' := by
  intro hc; subst hc; simp [isDigitCh] at h

theorem digit_ne_dot (c : Char) (h : isDigitCh c = true) : c ≠ '.' := by
  intro hc; subst hc; simp [isDigitCh] at h

theorem underscore_notMem_natToChars (n : Nat) : '_' ∉ natToChars n := by
  intro h
  exact digit_ne_underscore '_' (natToChars_digits n '_' h) rfl

theorem dot_notMem_natToChars (n : Nat) : '.' ∉ natToChars n := by
  intro h
  exact digit_ne_dot '.' (natToChars_digits n '.' h) rfl

theorem digitsVal_concat (xs : List Char) (c : Char) :
    digitsVal (xs ++ [c]) = 10 * digitsVal xs + (c.toNat - 48) := by
  simp [digitsVal, List.foldl_append]

theorem digitsVal_natToChars (n : Nat) : digitsVal (natToChars n) = n := by
  induction n using Nat.strong_induction_on with
  | _ n ih =>
    rw [natToChars]
    split
    · next h =>
      simp [digitsVal, toNat_digitCh n h]
    · next h =>
      rw [digitsVal_concat, ih (n / 10) (Nat.div_lt_self (by omega) (by omega)),
        toNat_digitCh (n % 10) (Nat.mod_lt n (by omega))]
      omega

theorem takeWhile_eq_self_of_all (p : Char → Bool) (l : List Char)
    (h : ∀ c ∈ l, p c = true) : l.takeWhile p = l := by
  induction l with
  | nil => rfl
  | cons a rest ih =>
    rw [List.takeWhile_cons, h a (List.mem_cons_self a rest)]
    simp [ih fun c hc => h c (List.mem_cons_of_mem a hc)]

theorem parseNatPref_natToChars (n : Nat) : parseNatPref (natToChars n) = some n := by
  unfold parseNatPref
  rw [takeWhile_eq_self_of_all isDigitCh (natToChars n) (natToChars_digits n)]
  simp [natToChars_ne_nil n, digitsVal_natToChars n]

theorem digit_not_jsSpace (c : Char) (h : isDigitCh c = true) : isJsSpace c = false := by
  simp only [isDigitCh, Bool.and_eq_true, decide_eq_true_eq] at h
  have hne : ∀ d : Char, ¬('0' ≤ d) → c ≠ d := by
    intro d hd hcd
    exact hd (hcd ▸ h.1)
  have hs1 : c ≠ ' ' := hne ' ' (by decide)
  have hs2 : c ≠ '\t' := hne '\t' (by decide)
  have hs3 : c ≠ '\n' := hne '\n' (by decide)
  have hs4 : c ≠ '\r' := hne '\r' (by decide)
  have hs5 : c ≠ '\x0b' := hne '\x0b' (by decide)
  have hs6 : c ≠ '\x0c' := hne '\x0c' (by decide)
  simp [isJsSpace, hs1, hs2, hs3, hs4, hs5, hs6]

theorem parseUnsigned_natToChars (n : Nat) :
    parseUnsigned (natToChars n) = some n := by
  have hp := parseNatPref_natToChars n
  cases hl : natToChars n with
  | nil => exact absurd hl (natToChars_ne_nil n)
  | cons a rest =>
    have hmem : ∀ c ∈ a :: rest, isDigitCh c = true := hl ▸ natToChars_digits n
    rw [hl] at hp
    cases rest with
    | nil => simpa [parseUnsigned] using hp
    | cons a1 rest1 =>
      have ha1d : isDigitCh a1 = true := hmem a1 (by simp)
      have hx : a1 ≠ 'x' := by intro h; subst h; simp [isDigitCh] at ha1d
      have hX : a1 ≠ 'X' := by intro h; subst h; simp [isDigitCh] at ha1d
      simpa [parseUnsigned, hx, hX] using hp

theorem parseIntJS_natToChars (n : Nat) : parseIntJS (natToChars n) = some (n : Int) := by
  cases hl : natToChars n with
  | nil => exact absurd hl (natToChars_ne_nil n)
  | cons a rest =>
    have ha : isDigitCh a = true := natToChars_digits n a (hl ▸ List.mem_cons_self a rest)
    have ha1 : a ≠ '-' := by intro h; subst h; simp [isDigitCh] at ha
    have ha2 : a ≠ '+' := by intro h; subst h; simp [isDigitCh] at ha
    have hU := parseUnsigned_natToChars n
    rw [hl] at hU
    have hdrop : (a :: rest).dropWhile isJsSpace = a :: rest := by
      rw [List.dropWhile_cons, digit_not_jsSpace a ha]
      simp
    simp [parseIntJS, hdrop, ha1, ha2, hU]

theorem dot_notMem_body (id slug : List Char) (ts : Nat)
    (hidd : '.' ∉ id) (hslugd : '.' ∉ slug) :
    '.' ∉ (id ++ ('_' :: (slug ++ ('_' :: natToChars ts)))) := by
  have h1 := dot_notMem_natToChars ts
  have h2 : ('.' : Char) ≠ '_' := by decide
  intro hmem
  simp only [List.mem_append, List.mem_cons] at hmem
  tauto

theorem splitOnChar_body (id slug : List Char) (ts : Nat)
    (hidu : '_' ∉ id) (hslugu : '_' ∉ slug) :
    splitOnChar '_' (id ++ ('_' :: (slug ++ ('_' :: natToChars ts))))
      = [id, slug, natToChars ts] := by
  rw [splitOnChar_append_left '_' id _ hidu,
    splitOnChar_append_last '_' slug _ (underscore_notMem_natToChars ts),
    splitOnChar_of_notMem '_' slug hslugu]
  rfl

theorem decodeBlob_mkKey (id slug : List Char) (ts now : Nat) (url : List Char)
    (hid : id ≠ []) (hidu : '_' ∉ id) (hidd : '.' ∉ id)
    (hslug : slug ≠ []) (hslugu : '_' ∉ slug) (hslugd : '.' ∉ slug)
    (hts : 0 < ts) (htsr : (ts : Int) ≤ maxDateMs) :
    decodeBlob now ⟨mkKey id slug ts, url⟩ =
      .ok { id := id, url := url, prompt := [], style := hyphensToSpaces slug,
            createdAtMs := (ts : Int) } := by
  have hassoc : mkKey id slug ts
      = framePref ++ ((id ++ ('_' :: (slug ++ ('_' :: natToChars ts)))) ++ pngExt) := by
    unfold mkKey; simp
  have hA : removeFirst framePref (mkKey id slug ts)
      = (id ++ ('_' :: (slug ++ ('_' :: natToChars ts)))) ++ pngExt := by
    rw [hassoc]; exact removeFirst_left framePref _ (by decide)
  have hpng : pngExt = '.' :: str "png" := rfl
  have hC : removeFirst pngExt ((id ++ ('_' :: (slug ++ ('_' :: natToChars ts)))) ++ pngExt)
      = id ++ ('_' :: (slug ++ ('_' :: natToChars ts))) := by
    rw [hpng]
    exact removeFirst_append_of_head_notMem '.' (str "png") _
      (dot_notMem_body id slug ts hidd hslugd)
  have hparts : keyPartsOf ⟨mkKey id slug ts, url⟩ = [id, slug, natToChars ts] := by
    unfold keyPartsOf
    rw [show (⟨mkKey id slug ts, url⟩ : Blob).pathname = mkKey id slug ts from rfl,
      hA, hC, splitOnChar_body id slug ts hidu hslugu]
  have hms : decodeEpochMs now (([id, slug, natToChars ts].getLastD []) : List Char)
      = (ts : Int) := by
    simp only [List.getLastD_cons, List.getLastD_nil]
    unfold decodeEpochMs
    rw [jsOr, if_neg (natToChars_ne_nil ts), parseIntJS_natToChars ts]
    have hzero : ((ts : Int) = 0) = False := by simp; omega
    simp [hzero]
  have hmax : (0 : Int) ≤ maxDateMs := by decide
  simp only [decodeBlob, hparts, hms]
  rw [if_neg (by omega : ¬((ts : Int) < -maxDateMs ∨ maxDateMs < (ts : Int)))]
  simp only [List.headD_cons, List.drop_succ_cons, List.drop_zero, List.dropLast]
  rw [show joinChar '_' [slug] = slug from rfl]
  rw [jsOr, if_neg hid, jsOr, if_neg hslug]

theorem key_body_round_trip (id slug ts : List Char)
    (hid : '_' ∉ id) (hts : '_' ∉ ts) :
    decodeKeyBody (encodeKeyBody id slug ts) = (id, slug, ts) := by
  unfold encodeKeyBody decodeKeyBody
  rw [splitOnChar_append_left '_' id _ hid, splitOnChar_append_last '_' slug _ hts]
  have hS : splitOnChar '_' slug ≠ [] := splitOnChar_ne_nil '_' slug
  simp only [List.headD_cons, List.drop_succ_cons, List.drop_zero]
  refine Prod.ext rfl (Prod.ext ?_ ?_)
  · show joinChar '_' ((splitOnChar '_' slug ++ [ts]).dropLast) = slug
    rw [List.dropLast_concat, joinChar_splitOnChar]
  · show (id :: (splitOnChar '_' slug ++ [ts])).getLastD [] = ts
    rw [show id :: (splitOnChar '_' slug ++ [ts]) = (id :: splitOnChar '_' slug) ++ [ts] from rfl,
      List.getLastD_concat]

/-- C4 witness: the round trip at a slug with an internal underscore. -/
theorem key_body_round_trip_witness :
    decodeKeyBody (encodeKeyBody (str "ab") (str "x_y") (str "123"))
      = (str "ab", str "x_y", str "123") :=
  key_body_round_trip (str "ab") (str "x_y") (str "123") (by decide) (by decide)

/-- C10 counterexample: the decoder is not total over arbitrary stored
keys: a `.png` key under the prefix whose numeric final token exceeds the
JS Date range makes `toISOString` throw, and the whole GET against a store
containing it returns 500 with `images: []` instead of a decoded
record. -/
theorem decoder_claim_fails :
    decodeBlob 7 ⟨str "frame-art/a_b_99999999999999999999.png", str "u"⟩
      = .error (str "RangeError") ∧
    (imagesGETStore [⟨str "frame-art/a_b_99999999999999999999.png", str "u"⟩] 7).status = 500 ∧
    (imagesGETStore [⟨str "frame-art/a_b_99999999999999999999.png", str "u"⟩] 7).images
      = some [] := by
  refine ⟨by decide, by decide, by decide⟩

/-- C10 (amended): the GET decoder never throws exactly when the epoch it
reconstructs lies within the JS Date range (given an in-range clock).  In
that case it produces one well-formed record with the claimed fallbacks:
id falls back to the full pathname when the first underscore token is
empty, style falls back to `Unknown` when no middle tokens exist, and the
creation time falls back to the current time when the timestamp string
does not parse as an integer; the record always carries the blob URL and
an empty prompt.  When the reconstructed epoch lies outside the range the
decode throws a RangeError (failing the whole GET). -/
theorem decoder_fallbacks (b : Blob) (now : Nat) (hnow : (now : Int) ≤ maxDateMs) :
    (-maxDateMs ≤ decodeEpochMs now ((keyPartsOf b).getLastD []) ∧
        decodeEpochMs now ((keyPartsOf b).getLastD []) ≤ maxDateMs →
      ∃ r, decodeBlob now b = .ok r ∧
        ((keyPartsOf b).headD [] = [] → r.id = b.pathname) ∧
        (((keyPartsOf b).drop 1).dropLast = [] → r.style = str "Unknown") ∧
        (parseIntJS (jsOr ((keyPartsOf b).getLastD []) (natToChars now)) = none →
          r.createdAtMs = (now : Int)) ∧
        r.url = b.url ∧ r.prompt = []) ∧
    (decodeEpochMs now ((keyPartsOf b).getLastD []) < -maxDateMs ∨
        maxDateMs < decodeEpochMs now ((keyPartsOf b).getLastD []) →
      decodeBlob now b = .error (str "RangeError")) := by
  constructor
  · intro hin
    set r0 : GeneratedImage :=
      { id := jsOr ((keyPartsOf b).headD []) b.pathname, url := b.url, prompt := [],
        style := hyphensToSpaces
          (jsOr (joinChar '_' (((keyPartsOf b).drop 1).dropLast)) (str "Unknown")),
        createdAtMs := decodeEpochMs now ((keyPartsOf b).getLastD []) } with hr0
    refine ⟨r0, ?_, fun h1 => ?_, fun h2 => ?_, fun h3 => ?_, rfl, rfl⟩
    · simp only [decodeBlob]
      rw [if_neg (by omega : ¬(decodeEpochMs now ((keyPartsOf b).getLastD []) < -maxDateMs ∨
        maxDateMs < decodeEpochMs now ((keyPartsOf b).getLastD [])))]
    · simp only [h1, jsOr, if_pos]
    · simp only [h2]
      rw [show joinChar '_' [] = [] from rfl]
      rw [show jsOr [] (str "Unknown") = str "Unknown" from rfl]
      decide
    · show decodeEpochMs now ((keyPartsOf b).getLastD []) = (now : Int)
      unfold decodeEpochMs
      rw [h3]
  · intro hout
    simp only [decodeBlob]
    rw [if_pos hout]

/-- C10 witness: the amended behaviour at concrete keys: the fallbacks at
an in-range malformed key and the thrown RangeError at an out-of-range
numeric token. -/
theorem decoder_fallbacks_witness :
    (∃ r, decodeBlob 7 ⟨str "frame-art/_a_xyz.png", str "u"⟩ = .ok r ∧
      ((keyPartsOf ⟨str "frame-art/_a_xyz.png", str "u"⟩).headD [] = []
        → r.id = (⟨str "frame-art/_a_xyz.png", str "u"⟩ : Blob).pathname) ∧
      (((keyPartsOf ⟨str "frame-art/_a_xyz.png", str "u"⟩).drop 1).dropLast = []
        → r.style = str "Unknown") ∧
      (parseIntJS (jsOr ((keyPartsOf ⟨str "frame-art/_a_xyz.png", str "u"⟩).getLastD [])
          (natToChars 7)) = none → r.createdAtMs = (7 : Int)) ∧
      r.url = (⟨str "frame-art/_a_xyz.png", str "u"⟩ : Blob).url ∧ r.prompt = []) ∧
    decodeBlob 7 ⟨str "frame-art/a_b_99999999999999999999.png", str "u"⟩
      = .error (str "RangeError") :=
  ⟨(decoder_fallbacks ⟨str "frame-art/_a_xyz.png", str "u"⟩ 7 (by decide)).1 (by decide),
   (decoder_fallbacks ⟨str "frame-art/a_b_99999999999999999999.png", str "u"⟩ 7
      (by decide)).2 (by decide)⟩

/-- C7: GET `/images` always answers with an `images` list: an empty
store yields HTTP 200 with an empty list (not an error), and a storage
listing failure yields HTTP 500 carrying both an error string and
`images: []`; the `images` key is present on every path. -/
theorem images_get_always_lists (now : Nat) (e : List Char) :
    imagesGET (.ok []) now = { status := 200, images := some [] } ∧
    imagesGET (.ok [[]]) now = { status := 200, images := some [] } ∧
    imagesGET (.error e) now
      = { status := 500, error := some (str "Failed to list images"), images := some [] } ∧
    (∀ listing : Except (List Char) (List (List Blob)),
      (imagesGET listing now).images.isSome = true) := by
  have h0 : getImagesFrom ([] : List Blob) now = .ok [] := by
    simp only [getImagesFrom, List.filter_nil, List.mapM_nil]
    simp [pure, Except.pure, Except.map]
  refine ⟨?_, ?_, rfl, ?_⟩
  · show imagesGET (.ok []) now = { status := 200, images := some [] }
    simp only [imagesGET, listAllBlobs]
    rw [h0]
  · show imagesGET (.ok [[]]) now = { status := 200, images := some [] }
    simp only [imagesGET, listAllBlobs, List.append_nil]
    rw [h0]
  · intro listing
    cases listing with
    | error e2 => simp [imagesGET]
    | ok pages =>
      simp only [imagesGET]
      cases h : getImagesFrom (listAllBlobs pages) now with
      | ok imgs => simp [h]
      | error e2 => simp [h]

/-- C9: the crafting call uses the restrained minimalist template with the
lower temperature (0.7) and smaller token cap (150) exactly when the style
text case-insensitively contains `minimal`, `simple` or `clean`; every
other style gets the cinematic template with temperature 1.2 and cap 400. -/
theorem minimalist_template_selection (style : List Char) :
    (craftConfig style
        = { template := .minimalist, temperature := 7 / 10, maxOutputTokens := 150 }
      ↔ (containsSub (str "minimal") (toLowerStr style) = true ∨
         containsSub (str "simple") (toLowerStr style) = true ∨
         containsSub (str "clean") (toLowerStr style) = true)) ∧
    (craftConfig style
        = { template := .cinematic, temperature := 12 / 10, maxOutputTokens := 400 }
      ↔ ¬(containsSub (str "minimal") (toLowerStr style) = true ∨
          containsSub (str "simple") (toLowerStr style) = true ∨
          containsSub (str "clean") (toLowerStr style) = true)) := by
  cases hm : containsSub (str "minimal") (toLowerStr style) <;>
    cases hs : containsSub (str "simple") (toLowerStr style) <;>
      cases hc : containsSub (str "clean") (toLowerStr style) <;>
        simp [craftConfig, isMinimalist, containsCI, hm, hs, hc]

/-- C2 (amended): the POST `/generate` contract as the code implements it.
Missing (or empty) `style` gives 400; missing credential gives 500;
crafting failure and an absent or empty crafted prompt give 500 with
`{error}` (the catch-all `Internal server error`); an upstream synthesis
failure is echoed with the upstream HTTP status and `{error, details}` —
not a fixed 500; a missing image payload gives 500 with `{error, details}`;
success gives 200 with body `{imageBase64, prompt}` and, in particular, no
`image` record and no `dimensions` field (there is no normalisation or
store stage in this route). -/
theorem generate_route_contract (s k p et img : List Char)
    (up t : Option (List Char)) (i : Option (List Char))
    (craft : CraftFetch) (synth : SynthFetch) (st : Nat)
    (hs : s ≠ []) (hk : k ≠ []) (hp : p ≠ []) :
    generatePOST none up (some k) craft synth
      = { status := 400, error := some (str "Style is required") } ∧
    generatePOST (some []) up (some k) craft synth
      = { status := 400, error := some (str "Style is required") } ∧
    generatePOST (some s) up none craft synth
      = { status := 500, error := some (str "API key not configured") } ∧
    generatePOST (some s) up (some k) { ok := false, text := t } synth
      = { status := 500, error := some (str "Internal server error") } ∧
    generatePOST (some s) up (some k) { ok := true, text := none } synth
      = { status := 500, error := some (str "Internal server error") } ∧
    generatePOST (some s) up (some k) { ok := true, text := some [] } synth
      = { status := 500, error := some (str "Internal server error") } ∧
    generatePOST (some s) up (some k) { ok := true, text := some p }
        { ok := false, status := st, errorText := et, image := i }
      = { status := st, error := some (str "Failed to generate image"),
          details := some et } ∧
    generatePOST (some s) up (some k) { ok := true, text := some p }
        { ok := true, status := st, errorText := et, image := none }
      = { status := 500, error := some (str "No image generated"),
          details := some (str "Model did not return an image") } ∧
    generatePOST (some s) up (some k) { ok := true, text := some p }
        { ok := true, status := st, errorText := et, image := some img }
      = { status := 200, imageBase64 := some img, prompt := some p } := by
  refine ⟨rfl, rfl, ?_, ?_, ?_, ?_, ?_, ?_, ?_⟩ <;>
    simp [generatePOST, jsFalsyO, List.isEmpty_iff, hs, hk, hp]

/-- C2 counterexample: with a present style and a configured credential,
an upstream synthesis failure with status 429 is answered with status 429,
not 500; and a fully successful run is answered 200 with `imageBase64` but
with no `image` record and no `dimensions` field, contradicting the
claimed success body `{ image: {...}, prompt, dimensions }`. -/
theorem generate_route_claim_fails :
    (generatePOST (some (str "oil painting")) none (some (str "key"))
        { ok := true, text := some (str "crafted") }
        { ok := false, status := 429, errorText := str "quota", image := none }).status = 429 ∧
    ((429 : Nat) ≠ 500) ∧
    (generatePOST (some (str "oil painting")) none (some (str "key"))
        { ok := true, text := some (str "crafted") }
        { ok := true, status := 200, errorText := [], image := some (str "img") }).status = 200 ∧
    (generatePOST (some (str "oil painting")) none (some (str "key"))
        { ok := true, text := some (str "crafted") }
        { ok := true, status := 200, errorText := [], image := some (str "img") }).image = none ∧
    (generatePOST (some (str "oil painting")) none (some (str "key"))
        { ok := true, text := some (str "crafted") }
        { ok := true, status := 200, errorText := [], image := some (str "img") }).dimensions = none := by
  refine ⟨?_, by decide, ?_, ?_, ?_⟩ <;> rfl

/-- C2 witness: the amended contract instantiated at concrete inputs. -/
theorem generate_route_contract_witness :
    generatePOST (some (str "a")) none (some (str "k"))
        { ok := true, text := some (str "p") }
        { ok := true, status := 200, errorText := [], image := some (str "img") }
      = { status := 200, imageBase64 := some (str "img"), prompt := some (str "p") } :=
  (generate_route_contract (str "a") (str "k") (str "p") [] (str "img") none none none
    { ok := true, text := none } { ok := true, status := 200, errorText := [], image := none } 200
    (by decide) (by decide) (by decide)).2.2.2.2.2.2.2.2

theorem activeCount_stepClient (s : ClientState) (a : QueueAction)
    (h : activeCount s ≤ maxConcurrent) :
    activeCount (stepClient s a) ≤ maxConcurrent := by
  cases a with
  | submit rid =>
    show activeCount (submitGen s rid) ≤ maxConcurrent
    unfold submitGen
    split
    · exact h
    · next hlt =>
      have hlt' : activeCount s < maxConcurrent := Nat.lt_of_not_le hlt
      unfold activeCount at hlt' ⊢
      rw [List.countP_append]
      simpa using hlt'
  | complete rid =>
    show activeCount (completeGen s rid) ≤ maxConcurrent
    unfold completeGen activeCount at *
    calc List.countP _ (s.queue.filter fun q => q.qid ≠ rid)
        ≤ List.countP _ s.queue := by
          rw [List.countP_filter]
          exact List.countP_mono_left (fun x _ hx => by
            simp only [Bool.and_eq_true] at hx
            exact hx.1)
      _ ≤ maxConcurrent := h
  | fail rid =>
    show activeCount (failGen s rid) ≤ maxConcurrent
    unfold failGen activeCount at *
    calc List.countP _ (s.queue.map fun q =>
            if q.qid = rid then { q with status := GenStatus.failed } else q)
        ≤ List.countP _ s.queue := by
          rw [List.countP_map]
          exact List.countP_mono_left (fun x _ hx => by
            by_cases hq : x.qid = rid <;> simp [Function.comp, hq] at hx ⊢ <;> simp [hx])
      _ ≤ maxConcurrent := h
  | dismiss rid =>
    show activeCount (dismissGen s rid) ≤ maxConcurrent
    unfold dismissGen activeCount at *
    calc List.countP _ (s.queue.filter _)
        ≤ List.countP _ s.queue := by
          rw [List.countP_filter]
          exact List.countP_mono_left (fun x _ hx => by
            simp only [Bool.and_eq_true] at hx
            exact hx.1)
      _ ≤ maxConcurrent := h

theorem activeCount_foldl (acts : List QueueAction) (s : ClientState)
    (h : activeCount s ≤ maxConcurrent) :
    activeCount (acts.foldl stepClient s) ≤ maxConcurrent := by
  induction acts generalizing s with
  | nil => exact h
  | cons a acts ih => exact ih (stepClient s a) (activeCount_stepClient s a h)

/-- C3: in every reachable client state the number of queued generations
in {pending, generating} is at most the admission bound 4, and a
submission arriving when the bound is reached is rejected client-side:
the state is unchanged, no network call is issued, and the source
`GenerateButton` reports the queue full (disabling the trigger). -/
theorem queue_admission_bound (acts : List QueueAction) (rid : Nat) :
    activeCount (runClient acts) ≤ maxConcurrent ∧
    (activeCount (runClient acts) = maxConcurrent →
      submitGen (runClient acts) rid = runClient acts ∧
      (submitGen (runClient acts) rid).networkCalls = (runClient acts).networkCalls ∧
      isQueueFull (activeCount (runClient acts)) maxConcurrent = true) := by
  refine ⟨activeCount_foldl acts initClient (by decide), fun hfull => ?_⟩
  have hrej : submitGen (runClient acts) rid = runClient acts := by
    unfold submitGen
    rw [if_pos (le_of_eq hfull.symm)]
  exact ⟨hrej, by rw [hrej], by simp [isQueueFull, hfull]⟩

/-- C8: POST `/edit` fails closed.  An unreachable source image yields a
single 500 response whose details name the fetch failure (and the word
`fetch` occurs in them) with the store unchanged; and on every run the
store is either unchanged or the whole chain succeeded: the response is a
200 carrying the new record and exactly one blob was appended — the write
happens only after fetch, upstream call, parse, extraction and resize have
all succeeded. -/
theorem edit_route_fail_closed (u e k : List Char) (st : Option (List Char))
    (fi : Option FetchedImage) (up : EditUpstream)
    (rz : List Char → Except (List Char) (List Char))
    (id : List Char) (ts : Nat) (putUrl : List Char) (store : List Blob)
    (hu : u ≠ []) (he : e ≠ []) (hk : k ≠ []) :
    editPOST (some u) (some e) st (some k) none up rz id ts putUrl store
      = ({ status := 500, error := some (str "Failed to edit image"),
           details := some (str "Failed to fetch original image") }, store) ∧
    containsSub (str "fetch") (str "Failed to fetch original image") = true ∧
    ((editPOST (some u) (some e) st (some k) fi up rz id ts putUrl store).2 = store ∨
      ((editPOST (some u) (some e) st (some k) fi up rz id ts putUrl store).1.status = 200 ∧
       (editPOST (some u) (some e) st (some k) fi up rz id ts putUrl store).1.error = none ∧
       (editPOST (some u) (some e) st (some k) fi up rz id ts putUrl store).2
         = store ++ [⟨mkKey id (sanitizeStyle (jsOrO st (str "edited"))) ts, putUrl⟩] ∧
       fi.isSome = true ∧ up.ok = true ∧ up.parsed.isSome = true)) := by
  have hfe : jsFalsyO (some u) = false := by
    simp [jsFalsyO, List.isEmpty_iff, hu]
  have hee : jsFalsyO (some e) = false := by
    simp [jsFalsyO, List.isEmpty_iff, he]
  have hke : jsFalsyO (some k) = false := by
    simp [jsFalsyO, List.isEmpty_iff, hk]
  refine ⟨?_, by decide, ?_⟩
  · simp [editPOST, hfe, hee, hke]
  · cases fi with
    | none => left; simp [editPOST, hfe, hee, hke]
    | some f =>
      cases hok : up.ok with
      | false => left; simp [editPOST, hfe, hee, hke, hok]
      | true =>
        cases hpar : up.parsed with
        | none => left; simp [editPOST, hfe, hee, hke, hok, hpar]
        | some pd =>
          cases himg : pd.image with
          | none => left; simp [editPOST, hfe, hee, hke, hok, hpar, himg]
          | some img =>
            cases hrz : rz img with
            | error msg => left; simp [editPOST, hfe, hee, hke, hok, hpar, himg, hrz]
            | ok png =>
              right
              simp [editPOST, hfe, hee, hke, hok, hpar, himg, hrz]

/-- C8 witness: the fail-closed contract at concrete inputs (a failed
source-image fetch against a one-blob store). -/
theorem edit_route_fail_closed_witness :
    editPOST (some (str "http://x/y.png")) (some (str "add a moon")) none (some (str "k"))
        none { ok := true, status := 200, text := [], parsed := none }
        (fun b => .ok b) (str "abcd1234") 5 (str "u2")
        [⟨str "frame-art/a_b_1.png", str "u1"⟩]
      = ({ status := 500, error := some (str "Failed to edit image"),
           details := some (str "Failed to fetch original image") },
         [⟨str "frame-art/a_b_1.png", str "u1"⟩]) :=
  (edit_route_fail_closed (str "http://x/y.png") (str "add a moon") (str "k") none
    none { ok := true, status := 200, text := [], parsed := none }
    (fun b => .ok b) (str "abcd1234") 5 (str "u2")
    [⟨str "frame-art/a_b_1.png", str "u1"⟩]
    (by decide) (by decide) (by decide)).1

theorem newerFirst_trans (a b c : GeneratedImage)
    (h1 : newerFirst a b) (h2 : newerFirst b c) : newerFirst a c := by
  simp only [newerFirst, decide_eq_true_eq] at *
  omega

theorem newerFirst_total (a b : GeneratedImage) : newerFirst a b || newerFirst b a := by
  simp only [newerFirst, Bool.or_eq_true, decide_eq_true_eq]
  omega

theorem mapM_ok_length {α β ε : Type} (f : α → Except ε β) (l : List α) (ys : List β)
    (h : l.mapM f = .ok ys) : ys.length = l.length := by
  induction l generalizing ys with
  | nil =>
    rw [List.mapM_nil] at h
    cases h
    rfl
  | cons a l ih =>
    rw [List.mapM_cons] at h
    cases hfa : f a with
    | error e =>
      rw [hfa] at h
      simp [Bind.bind, Except.bind] at h
    | ok b =>
      rw [hfa] at h
      cases hml : l.mapM f with
      | error e =>
        rw [hml] at h
        simp [Bind.bind, Except.bind] at h
      | ok bs =>
        rw [hml] at h
        simp only [Bind.bind, Except.bind, pure, Except.pure, Except.ok.injEq] at h
        rw [← h]
        simp [ih bs hml]

theorem mapM_ok_mem {α β ε : Type} (f : α → Except ε β) (l : List α) (ys : List β)
    (h : l.mapM f = .ok ys) : ∀ y ∈ ys, ∃ x ∈ l, f x = .ok y := by
  induction l generalizing ys with
  | nil =>
    rw [List.mapM_nil] at h
    cases h
    intro y hy
    cases hy
  | cons a l ih =>
    rw [List.mapM_cons] at h
    cases hfa : f a with
    | error e =>
      rw [hfa] at h
      simp [Bind.bind, Except.bind] at h
    | ok b =>
      rw [hfa] at h
      cases hml : l.mapM f with
      | error e =>
        rw [hml] at h
        simp [Bind.bind, Except.bind] at h
      | ok bs =>
        rw [hml] at h
        simp only [Bind.bind, Except.bind, pure, Except.pure, Except.ok.injEq] at h
        rw [← h]
        intro y hy
        rcases List.mem_cons.mp hy with rfl | hy2
        · exact ⟨a, List.mem_cons_self a l, hfa⟩
        · rcases ih bs hml y hy2 with ⟨x, hx, hfx⟩
          exact ⟨x, List.mem_cons_of_mem a hx, hfx⟩

/-- C6 counterexample: GET `/images` does not return sorted decoded
records for every store state: one prefix-listed `.png` key whose numeric
final token lies outside the JS Date range makes the whole GET return 500
with `images: []`. -/
theorem images_get_claim_fails :
    pngExt.isSuffixOf (str "frame-art/a_b_99999999999999999999.png") = true ∧
    framePref.isPrefixOf (str "frame-art/a_b_99999999999999999999.png") = true ∧
    (imagesGET (.ok [[⟨str "frame-art/a_b_99999999999999999999.png", str "u"⟩]]) 7).status
      = 500 ∧
    (imagesGET (.ok [[⟨str "frame-art/a_b_99999999999999999999.png", str "u"⟩]]) 7).images
      = some [] := by
  refine ⟨by decide, by decide, by decide, by decide⟩

/-- C6 (amended): when every prefix-listed `.png` key decodes without
throwing, GET `/images` walks the continuation cursors until the listing
is exhausted (so it processes exactly the full prefix listing), keeps only
`.png` keys, and answers 200 with their decoded records sorted newest
first, at most 100 of them: the response is the 100-prefix of a
newest-first-sorted permutation of the decoded records, each of which
decodes a prefix-listed `.png` key.  (A decode throw instead fails the
whole GET with a 500, per the counterexample.) -/
theorem images_get_pagination_sort_cap (store : List Blob) (pages : List (List Blob))
    (now : Nat) (recs : List GeneratedImage)
    (hpages : listAllBlobs pages = listService store)
    (hdec : ((listService store).filter (fun b => pngExt.isSuffixOf b.pathname)).mapM
        (decodeBlob now) = .ok recs) :
    imagesGET (.ok pages) now
      = { status := 200, images := some ((recs.mergeSort newerFirst).take 100) } ∧
    ((recs.mergeSort newerFirst).take 100).length ≤ 100 ∧
    List.Pairwise (fun a b => newerFirst a b = true) ((recs.mergeSort newerFirst).take 100) ∧
    (recs.mergeSort newerFirst).Perm recs ∧
    List.Pairwise (fun a b => newerFirst a b = true) (recs.mergeSort newerFirst) ∧
    (∀ r ∈ recs, ∃ x, x ∈ listService store ∧ pngExt.isSuffixOf x.pathname = true ∧
      decodeBlob now x = .ok r) := by
  have hsorted := @List.sorted_mergeSort GeneratedImage newerFirst
    newerFirst_trans newerFirst_total recs
  refine ⟨?_, ?_, ?_, List.mergeSort_perm recs newerFirst, hsorted, ?_⟩
  · simp only [imagesGET, hpages, getImagesFrom]
    rw [hdec]
    rfl
  · rw [List.length_take]
    exact Nat.min_le_left 100 _
  · exact List.Pairwise.sublist (List.take_sublist 100 _) hsorted
  · intro r hr
    rcases mapM_ok_mem _ _ _ hdec r hr with ⟨x, hx, hfx⟩
    exact ⟨x, List.mem_of_mem_filter hx, by simpa using List.of_mem_filter hx, hfx⟩

/-- C6 witness: the amended contract at a concrete two-page listing of a
three-blob store whose keys all decode. -/
theorem images_get_pagination_sort_cap_witness :
    imagesGET (.ok [[⟨str "frame-art/a_x_2.png", str "u1"⟩],
        [⟨str "frame-art/b_y_5.png", str "u2"⟩]]) 0
      = { status := 200,
          images := some ((([⟨str "a", str "u1", [], str "x", 2⟩,
            ⟨str "b", str "u2", [], str "y", 5⟩] : List GeneratedImage).mergeSort
              newerFirst).take 100) } :=
  (images_get_pagination_sort_cap
    [⟨str "frame-art/a_x_2.png", str "u1"⟩, ⟨str "frame-art/b_y_5.png", str "u2"⟩,
     ⟨str "other/c_z_9.png", str "u3"⟩]
    [[⟨str "frame-art/a_x_2.png", str "u1"⟩], [⟨str "frame-art/b_y_5.png", str "u2"⟩]]
    0 [⟨str "a", str "u1", [], str "x", 2⟩, ⟨str "b", str "u2", [], str "y", 5⟩]
    (by decide) (by decide)).1

theorem jsOr_nil (s : List Char) : jsOr s [] = s := by
  unfold jsOr
  split
  · next h => exact h.symm
  · rfl

theorem mkKey_eq_append_png (id slug : List Char) (ts : Nat) :
    mkKey id slug ts
      = (framePref ++ (id ++ ('_' :: (slug ++ ('_' :: natToChars ts))))) ++ pngExt := by
  unfold mkKey; simp

theorem png_suffix_mkKey (id slug : List Char) (ts : Nat) :
    pngExt.isSuffixOf (mkKey id slug ts) = true := by
  rw [mkKey_eq_append_png]
  exact isSuffixOf_append_self _ _

theorem framePref_prefix_mkKey (id slug : List Char) (ts : Nat) :
    framePref.isPrefixOf (mkKey id slug ts) = true := by
  unfold mkKey
  exact isPrefixOf_append_self _ _

theorem decode_ok_url (now : Nat) (x : Blob) (r : GeneratedImage)
    (h : decodeBlob now x = .ok r) : r.url = x.url := by
  simp only [decodeBlob] at h
  split at h
  · cases h
  · cases h
    rfl

/-- C1 counterexample: the save/list round trip fails when the store
already holds a `.png` key whose numeric final token lies outside the JS
Date range: the save succeeds, but the subsequent list throws while
decoding that key and returns 500 with `images: []`, so no record for the
stored key is listed. -/
theorem save_list_claim_fails :
    ((imagesGETStore
        ((imagesPOST [⟨str "frame-art/zz_aa_99999999999999999999.png", str "u0"⟩]
          (some (str "x")) (some (str "Dawn Glow")) (some (str "p"))
          (str "ab12cd34") 1000 (str "u9")).2) 3).images.getD []).filter
        (fun r => r.url == str "u9") = [] ∧
    (imagesGETStore
        ((imagesPOST [⟨str "frame-art/zz_aa_99999999999999999999.png", str "u0"⟩]
          (some (str "x")) (some (str "Dawn Glow")) (some (str "p"))
          (str "ab12cd34") 1000 (str "u9")).2) 3).status = 500 := by
  refine ⟨by decide, by decide⟩

/-- C1 (amended): saving PNG bytes with the style label `Dawn Glow` and
any prompt answers with the literal-label record and appends exactly one
blob whose key is `frame-art/{id}_dawn-glow_{ts}.png`; and — provided
every pre-existing prefix-listed `.png` key decodes without throwing and
fewer than 100 blobs are stored (so the 100-cap cannot drop the new
record) — a subsequent list contains exactly one record for that stored
key (singled out by the object URL): its style is `dawn glow` and its
creation time is exactly the millisecond epoch embedded as the last
underscore token of the key. -/
theorem save_list_round_trip (store : List Blob) (png prompt id url : List Char)
    (ts now : Nat) (recs : List GeneratedImage)
    (hpng : png ≠ []) (hid : id ≠ []) (hidu : '_' ∉ id) (hidd : '.' ∉ id)
    (hts : 0 < ts) (htsr : (ts : Int) ≤ maxDateMs) (hlen : store.length < 100)
    (hfresh : ∀ b ∈ store, b.url ≠ url)
    (hdec : ((listService store).filter (fun b => pngExt.isSuffixOf b.pathname)).mapM
        (decodeBlob now) = .ok recs) :
    (imagesPOST store (some png) (some (str "Dawn Glow")) (some prompt) id ts url).1.image
      = some { id := id, url := url, prompt := prompt, style := str "Dawn Glow",
               createdAtMs := (ts : Int) } ∧
    (imagesPOST store (some png) (some (str "Dawn Glow")) (some prompt) id ts url).2
      = store ++ [⟨mkKey id (str "dawn-glow") ts, url⟩] ∧
    ((imagesGETStore (store ++ [⟨mkKey id (str "dawn-glow") ts, url⟩]) now).images.getD []).filter
        (fun r => r.url == url)
      = [{ id := id, url := url, prompt := [], style := str "dawn glow",
           createdAtMs := (ts : Int) }] := by
  have hpngf : jsFalsyO (some png) = false := by
    simp [jsFalsyO, List.isEmpty_iff, hpng]
  have hsan : sanitizeStyle (jsOrO (some (str "Dawn Glow")) (str "artwork"))
      = str "dawn-glow" := by decide
  refine ⟨?_, ?_, ?_⟩
  · simp [imagesPOST, hpngf, jsOrO, jsOr_nil]
    decide
  · simp [imagesPOST, hpngf, hsan]
  · set nb : Blob := ⟨mkKey id (str "dawn-glow") ts, url⟩ with hnb
    set rec : GeneratedImage :=
      { id := id, url := url, prompt := [], style := str "dawn glow",
        createdAtMs := (ts : Int) } with hrec
    have hdecnb : decodeBlob now nb = .ok rec := by
      rw [hnb, decodeBlob_mkKey id (str "dawn-glow") ts now url hid hidu hidd
        (by decide) (by decide) (by decide) hts htsr]
      rw [hrec]
      have : hyphensToSpaces (str "dawn-glow") = str "dawn glow" := by decide
      rw [this]
    have hls : listService (store ++ [nb]) = listService store ++ [nb] := by
      unfold listService
      rw [List.filter_append]
      simp [hnb, framePref_prefix_mkKey]
    have hfl : (listService (store ++ [nb])).filter (fun b => pngExt.isSuffixOf b.pathname)
        = ((listService store).filter (fun b => pngExt.isSuffixOf b.pathname)) ++ [nb] := by
      rw [hls, List.filter_append]
      simp [hnb, png_suffix_mkKey]
    have hmapM : ((listService (store ++ [nb])).filter
        (fun b => pngExt.isSuffixOf b.pathname)).mapM (decodeBlob now)
        = .ok (recs ++ [rec]) := by
      rw [hfl, List.mapM_append, hdec, List.mapM_cons, hdecnb, List.mapM_nil]
      simp [Bind.bind, Except.bind, pure, Except.pure]
    have hlenL : (recs ++ [rec]).length ≤ 100 := by
      have h1 : recs.length = ((listService store).filter
          (fun b => pngExt.isSuffixOf b.pathname)).length := mapM_ok_length _ _ _ hdec
      have h2 : ((listService store).filter
          (fun b => pngExt.isSuffixOf b.pathname)).length ≤ (listService store).length :=
        List.length_filter_le _ _
      have h3 : (listService store).length ≤ store.length := List.length_filter_le _ _
      simp only [List.length_append, List.length_cons, List.length_nil]
      omega
    have hge : getImagesFrom (listService (store ++ [nb])) now
        = .ok (((recs ++ [rec]).mergeSort newerFirst).take 100) := by
      unfold getImagesFrom
      rw [hmapM]
      rfl
    have htake : (((recs ++ [rec]).mergeSort newerFirst).take 100)
        = (recs ++ [rec]).mergeSort newerFirst :=
      List.take_of_length_le
        (by rw [(List.mergeSort_perm (recs ++ [rec]) newerFirst).length_eq]; exact hlenL)
    have himg : (imagesGETStore (store ++ [nb]) now).images.getD []
        = (recs ++ [rec]).mergeSort newerFirst := by
      simp only [imagesGETStore, imagesGET, listAllBlobs, List.append_nil, hge,
        Option.getD_some]
      exact htake
    rw [himg]
    have hAnil : recs.filter (fun r => r.url == url) = [] := by
      rw [List.filter_eq_nil_iff]
      intro r hr
      rcases mapM_ok_mem _ _ _ hdec r hr with ⟨x, hx, hfx⟩
      have hxstore : x ∈ store :=
        List.mem_of_mem_filter (List.mem_of_mem_filter hx)
      have hurl : r.url = x.url := decode_ok_url now x r hfx
      simp only [beq_iff_eq]
      rw [hurl]
      exact hfresh x hxstore
    have hLf : (recs ++ [rec]).filter (fun r => r.url == url) = [rec] := by
      rw [List.filter_append, hAnil]
      simp [hrec]
    have hperm : List.Perm (((recs ++ [rec]).mergeSort newerFirst).filter
        (fun r => r.url == url)) ((recs ++ [rec]).filter (fun r => r.url == url)) :=
      (List.mergeSort_perm (recs ++ [rec]) newerFirst).filter _
    rw [hLf] at hperm
    exact List.perm_singleton.mp hperm

/-- C1 witness: the amended round trip at a concrete save into an empty
store. -/
theorem save_list_round_trip_witness :
    ((imagesGETStore ([] ++ [⟨mkKey (str "ab12cd34") (str "dawn-glow") 1700000000000, str "u9"⟩])
        3).images.getD []).filter (fun r => r.url == str "u9")
      = [{ id := str "ab12cd34", url := str "u9", prompt := [], style := str "dawn glow",
           createdAtMs := (1700000000000 : Int) }] :=
  (save_list_round_trip [] (str "x") (str "p") (str "ab12cd34") (str "u9") 1700000000000 3 []
    (by decide) (by decide) (by decide) (by decide) (by decide) (by decide) (by decide)
    (by intro b hb; cases hb) (by decide)).2.2

theorem eraseP_no_match (p : Blob → Bool) (l : List Blob)
    (h : l.countP p = 1) : ∀ x ∈ l.eraseP p, p x = false := by
  induction l with
  | nil => intro x hx; cases hx
  | cons a l ih =>
    by_cases pa : p a = true
    · rw [List.eraseP_cons_of_pos pa] at *
      rw [List.countP_cons_of_pos _ _ pa] at h
      have h0 : l.countP p = 0 := by omega
      intro x hx
      have := (List.countP_eq_zero.mp h0) x hx
      simpa using this
    · have pa' : ¬ p a := by simpa using pa
      rw [List.eraseP_cons_of_neg pa'] at *
      rw [List.countP_cons_of_neg _ _ pa'] at h
      intro x hx
      rcases List.mem_cons.mp hx with rfl | hx'
      · simpa using pa'
      · exact ih h x hx'

theorem two_mem_two_le_length {α : Type} (l : List α) (a b : α)
    (ha : a ∈ l) (hb : b ∈ l) (hne : a ≠ b) : 2 ≤ l.length := by
  cases l with
  | nil => cases ha
  | cons x xs =>
    cases xs with
    | nil =>
      have h1 : a = x := List.mem_singleton.mp ha
      have h2 : b = x := List.mem_singleton.mp hb
      exact absurd (h1.trans h2.symm) hne
    | cons y ys =>
      simp only [List.length_cons]
      omega

/-- C5 (amended): DELETE `/images` answers 400 when the id parameter is
missing.  The handler searches only the first page of its single
unpaginated listing call: the first blob there whose key contains the id
as a substring is deleted (the service removes the object at the found
URL) answering 200 `{success: true}`, and when no key on that page
matches the answer is 404.  Consequently — provided the match lies on the
searched page, exactly one stored key contains the id as a substring, the
found URL is unique, and no other stored blob decodes to that id — after
the delete the artwork is absent from a subsequent list and deleting the
same id a second time (against any page of the new listing) returns
404. -/
theorem delete_route_contract (store page : List Blob) (idc : List Char) (now : Nat)
    (b : Blob)
    (hne : idc ≠ [])
    (hpsub : ∀ x ∈ page, x ∈ listService store)
    (hfind : page.find? (fun x => containsSub idc x.pathname) = some b)
    (hurl : store.countP (fun x => x.url == b.url) = 1)
    (hcont : store.countP (fun x => containsSub idc x.pathname) = 1)
    (hdecid : ∀ x ∈ store, containsSub idc x.pathname = false →
        (decodeBlob now x).map GeneratedImage.id ≠ Except.ok idc) :
    imagesDELETE store page none
      = ({ status := 400, error := some (str "Image ID is required") }, store) ∧
    imagesDELETE store page (some idc)
      = ({ status := 200, success := some true },
         store.eraseP (fun x => x.url == b.url)) ∧
    (∀ r ∈ (imagesGETStore (store.eraseP (fun x => x.url == b.url)) now).images.getD [],
       r.id ≠ idc) ∧
    (∀ page2, (∀ x ∈ page2, x ∈ listService (store.eraseP (fun x => x.url == b.url))) →
      imagesDELETE (store.eraseP (fun x => x.url == b.url)) page2 (some idc)
        = ({ status := 404, error := some (str "Image not found") },
           store.eraseP (fun x => x.url == b.url))) := by
  have hnef : jsFalsyO (some idc) = false := by
    simp [jsFalsyO, List.isEmpty_iff, hne]
  set pu : Blob → Bool := fun x => x.url == b.url with hpu
  set store' := store.eraseP pu with hstore'
  have hnomatchurl : ∀ x ∈ store', pu x = false := eraseP_no_match pu store hurl
  have hbcont : containsSub idc b.pathname = true := by
    have h := List.find?_some hfind
    simpa using h
  have hbmem : b ∈ store :=
    List.mem_of_mem_filter (hpsub b (List.mem_of_find?_eq_some hfind))
  have hnocont : ∀ x ∈ store', containsSub idc x.pathname = false := by
    intro x hx
    by_contra hcx
    have hcx' : containsSub idc x.pathname = true := by simpa using hcx
    have hxstore : x ∈ store := List.mem_of_mem_eraseP hx
    have hxb : x ≠ b := by
      intro h
      have hfalse := hnomatchurl x hx
      rw [hpu, h] at hfalse
      simp at hfalse
    have hbf : b ∈ store.filter (fun y => containsSub idc y.pathname) :=
      List.mem_filter.mpr ⟨hbmem, hbcont⟩
    have hxf : x ∈ store.filter (fun y => containsSub idc y.pathname) :=
      List.mem_filter.mpr ⟨hxstore, hcx'⟩
    have h2 : 2 ≤ (store.filter (fun y => containsSub idc y.pathname)).length :=
      two_mem_two_le_length _ x b hxf hbf hxb
    rw [List.countP_eq_length_filter] at hcont
    omega
  refine ⟨rfl, ?_, ?_, ?_⟩
  · simp only [imagesDELETE, hnef, Bool.false_eq_true, if_false, Option.getD_some, hfind]
  · intro r hr
    simp only [imagesGETStore, imagesGET, listAllBlobs, List.append_nil] at hr
    cases hge : getImagesFrom (listService store') now with
    | error e =>
      rw [hge] at hr
      simp at hr
    | ok imgs =>
      rw [hge] at hr
      simp only [Option.getD_some] at hr
      unfold getImagesFrom at hge
      cases hmm : ((listService store').filter
          (fun x => pngExt.isSuffixOf x.pathname)).mapM (decodeBlob now) with
      | error e2 =>
        rw [hmm] at hge
        cases hge
      | ok recs2 =>
        rw [hmm] at hge
        cases hge
        have hr2 : r ∈ recs2.mergeSort newerFirst :=
          List.mem_of_mem_take hr
        have hr3 : r ∈ recs2 :=
          ((List.mergeSort_perm recs2 newerFirst).mem_iff).mp hr2
        rcases mapM_ok_mem _ _ _ hmm r hr3 with ⟨x, hxf, hfx⟩
        have hxstore' : x ∈ store' := List.mem_of_mem_filter (List.mem_of_mem_filter hxf)
        have hxstore : x ∈ store := List.mem_of_mem_eraseP hxstore'
        have hxcont : containsSub idc x.pathname = false := hnocont x hxstore'
        have hid := hdecid x hxstore hxcont
        rw [hfx] at hid
        intro hreq
        exact hid (by rw [Except.map, hreq])
  · intro page2 hp2
    have hfind2 : page2.find? (fun x => containsSub idc x.pathname) = none := by
      rw [List.find?_eq_none]
      intro x hx
      have hx' : x ∈ store' := List.mem_of_mem_filter (hp2 x hx)
      simp [hnocont x hx']
    simp only [imagesDELETE, hnef, Bool.false_eq_true, if_false, Option.getD_some, hfind2]

/-- C5 counterexample: deleting a saved id does not always remove that
artwork.  The listing page holds the saved artwork with id `12345678` and
an earlier-listed key whose slug happens to contain `12345678`; the delete
answers 200 but removes the other blob, and a subsequent list still
contains a record with the deleted id. -/
theorem delete_claim_fails :
    (imagesDELETE
        [⟨str "frame-art/0aaaaaaa_bb12345678cc_999.png", str "u1"⟩,
         ⟨str "frame-art/12345678_dawn-glow_1000.png", str "u2"⟩]
        [⟨str "frame-art/0aaaaaaa_bb12345678cc_999.png", str "u1"⟩,
         ⟨str "frame-art/12345678_dawn-glow_1000.png", str "u2"⟩]
        (some (str "12345678"))).1.status = 200 ∧
    (imagesDELETE
        [⟨str "frame-art/0aaaaaaa_bb12345678cc_999.png", str "u1"⟩,
         ⟨str "frame-art/12345678_dawn-glow_1000.png", str "u2"⟩]
        [⟨str "frame-art/0aaaaaaa_bb12345678cc_999.png", str "u1"⟩,
         ⟨str "frame-art/12345678_dawn-glow_1000.png", str "u2"⟩]
        (some (str "12345678"))).2
      = [⟨str "frame-art/12345678_dawn-glow_1000.png", str "u2"⟩] ∧
    ((imagesGETStore [⟨str "frame-art/12345678_dawn-glow_1000.png", str "u2"⟩] 0).images.getD []).any
        (fun r => r.id == str "12345678") = true := by
  refine ⟨by decide, by decide, ?_⟩
  have hb2 : decodeBlob 0 (⟨str "frame-art/12345678_dawn-glow_1000.png", str "u2"⟩ : Blob)
      = .ok ⟨str "12345678", str "u2", [], str "dawn glow", 1000⟩ := by decide
  have h1 : listService [⟨str "frame-art/12345678_dawn-glow_1000.png", str "u2"⟩]
      = [⟨str "frame-art/12345678_dawn-glow_1000.png", str "u2"⟩] := by decide
  have h2 : ([(⟨str "frame-art/12345678_dawn-glow_1000.png", str "u2"⟩ : Blob)].filter
        (fun x => pngExt.isSuffixOf x.pathname))
      = [⟨str "frame-art/12345678_dawn-glow_1000.png", str "u2"⟩] := by decide
  have hge : getImagesFrom (listService [⟨str "frame-art/12345678_dawn-glow_1000.png", str "u2"⟩]) 0
      = .ok ((([(⟨str "12345678", str "u2", [], str "dawn glow", 1000⟩ : GeneratedImage)]).mergeSort
          newerFirst).take 100) := by
    unfold getImagesFrom
    rw [h1, h2, List.mapM_cons, hb2, List.mapM_nil]
    simp [Bind.bind, Except.bind, pure, Except.pure, Except.map]
  simp only [imagesGETStore, imagesGET, listAllBlobs, List.append_nil, hge, Option.getD_some]
  rw [List.mergeSort_singleton]
  decide

/-- C5 witness: the amended contract at a concrete two-blob store whose
listing fits one page and has a unique match. -/
theorem delete_route_contract_witness :
    imagesDELETE
        [⟨str "frame-art/zz_aa_5.png", str "w1"⟩,
         ⟨str "frame-art/ab12cd34_dawn-glow_7.png", str "w2"⟩]
        [⟨str "frame-art/zz_aa_5.png", str "w1"⟩,
         ⟨str "frame-art/ab12cd34_dawn-glow_7.png", str "w2"⟩]
        (some (str "ab12cd34"))
      = ({ status := 200, success := some true },
         [⟨str "frame-art/zz_aa_5.png", str "w1"⟩]) :=
  ((delete_route_contract
      [⟨str "frame-art/zz_aa_5.png", str "w1"⟩,
       ⟨str "frame-art/ab12cd34_dawn-glow_7.png", str "w2"⟩]
      [⟨str "frame-art/zz_aa_5.png", str "w1"⟩,
       ⟨str "frame-art/ab12cd34_dawn-glow_7.png", str "w2"⟩]
      (str "ab12cd34") 0 ⟨str "frame-art/ab12cd34_dawn-glow_7.png", str "w2"⟩
      (by decide) (by decide) (by decide) (by decide) (by decide)
      (by decide)).2.1).trans (by decide)
